import Mathlib

/-!
# Verification of the mi-negocio-web pricing / expiry / store layer

Shallow embedding of the repository's storage layer and the relevant route
handlers:

* `Mem` models `MemStorage` (server in-memory backend, `src/unnamed/part_000`);
* `Db` models `DatabaseStorage` (`src/server/storage.ts`), with the SQL
  operations modelled over a list of rows (drizzle `where`/`orderBy`/`limit`
  become `filter`/`mergeSort`/`take`; SQL `NULL` comparisons are three-valued,
  so a row whose compared column is `NULL` never satisfies a `<` predicate);
* `Routes` models the duplicate-name checking logic of `POST /api/products`
  and `PUT /api/products/:id` (`src/server/routes.ts`).

Conventions of the embedding:

* JavaScript numbers obtained from the decimal strings of the schema
  (`purchasePrice`, `profitMargin`, `salePrice`) are modelled as `ℚ`;
  `parseFloat` of a validated decimal string is the identity, and
  `Number.prototype.toFixed(2)` is rounding to 2 decimal places
  (half away from zero, which for the positive prices involved is `round`).
* Timestamps (`Date`) are integer milliseconds since the epoch; `new Date()`
  calls inside one request body are one `now : Int` parameter, and
  `setDate(getDate() + 3)` is adding three days of milliseconds.
* `undefined`/`null` optional fields are `Option _`; the JavaScript
  truthiness idioms of the source (`x || y`, `x ? a : b`, `new Date(null)`)
  are modelled by explicit helper functions defined below.
* `Array.prototype.sort` with the comparators of the source
  (`localeCompare` on names, numeric difference on timestamps) is
  `List.mergeSort` with the corresponding `≤` test.
-/

/-- `Number.prototype.toFixed(2)` on a nonnegative decimal value:
round to the nearest hundredth (ties away from zero). -/
def toFixed2 (q : ℚ) : ℚ := ((round (q * 100) : ℤ) : ℚ) / 100

/-- One calendar day in milliseconds (the embedding of `setDate(d + 1)`
for a server clock without DST jumps). -/
def dayMs : Int := 86400000

/-- `needle.isPrefixOf`-based substring test on character lists. -/
def listContainsSeq (sub : List Char) : List Char → Bool
  | [] => sub.isEmpty
  | c :: t => sub.isPrefixOf (c :: t) || listContainsSeq sub t

/-- `String.prototype.includes` / SQL `LIKE '%sub%'`: `sub` occurs
contiguously in `hay`. -/
def strIncludes (hay sub : String) : Bool := listContainsSeq sub.data hay.data

/-- JS `x || null` for an optional string field: the empty string is falsy
and becomes `null`. -/
def jsStrOrNull : Option String → Option String
  | some s => if s = "" then none else some s
  | none => none

/-- JS `x || null` for an optional numeric field: `0` is falsy and becomes
`null`. -/
def jsIntOrNull : Option Int → Option Int
  | some n => if n = 0 then none else some n
  | none => none

/-- JS `new || old` for an optional string field: an omitted (`undefined`)
or empty-string `new` falls back to `old`. -/
def jsStrOrElse (new old : Option String) : Option String :=
  match new with
  | some s => if s = "" then old else some s
  | none => old

/-- JS `new !== undefined ? new : old` for an optional numeric field:
any supplied value (including `0`) wins. -/
def jsIntOrKeep (new old : Option Int) : Option Int :=
  match new with
  | some n => some n
  | none => old

/-- JS `new Date(x).getTime()` where `x : Date | null`:
`new Date(null)` is the epoch. -/
def jsDateMs : Option Int → Int
  | some e => e
  | none => 0

/-- A row of the `products` table (`shared/schema.ts`), decimal columns as
exact rationals, timestamps in milliseconds. -/
structure Product where
  id : Nat
  name : String
  barcode : Option String
  purchasePrice : ℚ
  salePrice : ℚ
  profitMargin : ℚ
  buyerName : Option String
  stock : Option Int
  minStock : Option Int
  createdAt : Int
  updatedAt : Int
deriving DecidableEq, Repr

/-- A value accepted by `insertProductSchema`: `name` and `purchasePrice`
required, everything else optional (`z.string().optional()` admits the
empty string). -/
structure InsertProduct where
  name : String
  barcode : Option String := none
  purchasePrice : ℚ
  profitMargin : Option ℚ := none
  buyerName : Option String := none
  stock : Option Int := none
  minStock : Option Int := none
deriving DecidableEq, Repr

/-- `updateProductSchema` is field-for-field the same shape as
`insertProductSchema`. -/
abbrev UpdateProduct := InsertProduct

/-- A row of the `business_news` table: `expiresAt` is the one nullable
column. -/
structure BusinessNews where
  id : Nat
  title : String
  content : String
  isPermanent : Bool
  createdAt : Int
  expiresAt : Option Int
deriving DecidableEq, Repr

/-- A value accepted by `insertBusinessNewsSchema`; `isPermanent` has a
column default, so the parsed field may be absent. -/
structure InsertBusinessNews where
  title : String
  content : String
  isPermanent : Option Bool := none
deriving DecidableEq, Repr

/-- Comparator of `getAllProducts`/`searchProducts`:
`(a, b) => a.name.localeCompare(b.name)`, modelled as lexicographic `≤`. -/
def nameLe (a b : Product) : Bool := a.name ≤ b.name

/-- Comparator of `getAllBusinessNews`:
`(a, b) => a.createdAt.getTime() - b.createdAt.getTime()`. -/
def createdLe (a b : BusinessNews) : Bool := a.createdAt ≤ b.createdAt

namespace Mem

/-- The mutable fields of `MemStorage` that the product/news operations
touch (`users` and the session store are irrelevant to them). -/
structure State where
  products : List Product
  businessNews : List BusinessNews
  nextProductId : Nat
  nextNewsId : Nat
deriving DecidableEq, Repr

/-- `MemStorage.getAllProducts`. -/
def getAllProducts (s : State) : List Product :=
  s.products.mergeSort nameLe

/-- `MemStorage.getProductById`. -/
def getProductById (s : State) (id : Nat) : Option Product :=
  s.products.find? (fun p => p.id == id)

/-- `MemStorage.getProductByName`. -/
def getProductByName (s : State) (name : String) : Option Product :=
  s.products.find? (fun p => p.name == name)

/-- `MemStorage.searchProducts`: filter by
`product.name.includes(query.toUpperCase())`, sort by name, `slice(0, 10)`. -/
def searchProducts (s : State) (query : String) : List Product :=
  ((s.products.filter fun p => strIncludes p.name query.toUpper).mergeSort
    nameLe).take 10

/-- `MemStorage.createProduct`. `profitMargin ? parseFloat(profitMargin) : 20`
reads the effective margin; falsy optional fields are stored as `null`. -/
def createProduct (s : State) (ins : InsertProduct) (now : Int) :
    Product × State :=
  let profitMargin : ℚ :=
    match ins.profitMargin with
    | some m => m
    | none => 20
  let salePrice := toFixed2 (ins.purchasePrice * (1 + profitMargin / 100))
  let product : Product :=
    { id := s.nextProductId
      name := ins.name
      barcode := jsStrOrNull ins.barcode
      purchasePrice := ins.purchasePrice
      salePrice := salePrice
      profitMargin := profitMargin
      buyerName := jsStrOrNull ins.buyerName
      stock := jsIntOrNull ins.stock
      minStock := jsIntOrNull ins.minStock
      createdAt := now
      updatedAt := now }
  (product,
    { s with
      products := s.products ++ [product]
      nextProductId := s.nextProductId + 1 })

/-- `MemStorage.updateProduct`: `findIndex` on the id, then an in-place
merge of the patch over the stored record. The inner `none` branch is
unreachable (`findIdx?` always returns an index in range). -/
def updateProduct (s : State) (id : Nat) (u : UpdateProduct) (now : Int) :
    Option Product × State :=
  match s.products.findIdx? (fun p => p.id == id) with
  | none => (none, s)
  | some idx =>
    match s.products[idx]? with
    | none => (none, s)
    | some old =>
      let profitMargin : ℚ :=
        match u.profitMargin with
        | some m => m
        | none => old.profitMargin
      let salePrice := toFixed2 (u.purchasePrice * (1 + profitMargin / 100))
      let merged : Product :=
        { old with
          name := u.name
          barcode := jsStrOrElse u.barcode old.barcode
          purchasePrice := u.purchasePrice
          salePrice := salePrice
          profitMargin := profitMargin
          buyerName := jsStrOrElse u.buyerName old.buyerName
          stock := jsIntOrKeep u.stock old.stock
          minStock := jsIntOrKeep u.minStock old.minStock
          updatedAt := now }
      (some merged, { s with products := s.products.set idx merged })

/-- `MemStorage.deleteProduct`: `findIndex` then `splice(index, 1)`. -/
def deleteProduct (s : State) (id : Nat) : Bool × State :=
  match s.products.findIdx? (fun p => p.id == id) with
  | none => (false, s)
  | some idx => (true, { s with products := s.products.eraseIdx idx })

/-- The filter of `MemStorage.getAllBusinessNews`:
`news.isPermanent || (news.expiresAt && new Date(news.expiresAt) > now)`. -/
def newsActive (now : Int) (n : BusinessNews) : Bool :=
  n.isPermanent ||
    match n.expiresAt with
    | some e => decide (now < e)
    | none => false

/-- `MemStorage.getAllBusinessNews`: filter the active entries, then sort
ascending by creation time. -/
def getAllBusinessNews (s : State) (now : Int) : List BusinessNews :=
  (s.businessNews.filter (newsActive now)).mergeSort createdLe

/-- `MemStorage.createBusinessNews`: a non-permanent announcement gets
`expiresAt` three days after `now`; a permanent one gets `null`. -/
def createBusinessNews (s : State) (ins : InsertBusinessNews) (now : Int) :
    BusinessNews × State :=
  let expiresAt : Option Int :=
    if ins.isPermanent.getD false then none else some (now + 3 * dayMs)
  let news : BusinessNews :=
    { id := s.nextNewsId
      title := ins.title
      content := ins.content
      isPermanent := ins.isPermanent.getD false
      createdAt := now
      expiresAt := expiresAt }
  (news,
    { s with
      businessNews := s.businessNews ++ [news]
      nextNewsId := s.nextNewsId + 1 })

/-- `MemStorage.deleteBusinessNews`. -/
def deleteBusinessNews (s : State) (id : Nat) : Bool × State :=
  match s.businessNews.findIdx? (fun n => n.id == id) with
  | none => (false, s)
  | some idx => (true, { s with businessNews := s.businessNews.eraseIdx idx })

/-- `MemStorage.deleteExpiredNews`: keeps the entries with
`new Date(news.expiresAt) > now` (so a `null` `expiresAt` compares as the
epoch) and returns how many were dropped. -/
def deleteExpiredNews (s : State) (now : Int) : Nat × State :=
  let kept := s.businessNews.filter fun n => decide (now < jsDateMs n.expiresAt)
  (s.businessNews.length - kept.length, { s with businessNews := kept })

end Mem

namespace Db

/-- The rows of the two tables that the claims touch; `nextProductId` /
`nextNewsId` stand for the database sequences behind `serial` columns. -/
structure State where
  products : List Product
  businessNews : List BusinessNews
  nextProductId : Nat
  nextNewsId : Nat
deriving DecidableEq, Repr

/-- `DatabaseStorage.getAllProducts`: `ORDER BY name ASC`. -/
def getAllProducts (s : State) : List Product :=
  s.products.mergeSort nameLe

/-- `DatabaseStorage.getProductById`: `WHERE id = ?`, first row or
`undefined`. -/
def getProductById (s : State) (id : Nat) : Option Product :=
  s.products.find? (fun p => p.id == id)

/-- `DatabaseStorage.getProductByName`. -/
def getProductByName (s : State) (name : String) : Option Product :=
  s.products.find? (fun p => p.name == name)

/-- `DatabaseStorage.searchProducts`:
`WHERE name LIKE '%' || upper(query) || '%' ORDER BY name ASC LIMIT 10`
(queries are plain text, so `LIKE` is a substring test). -/
def searchProducts (s : State) (query : String) : List Product :=
  ((s.products.filter fun p => strIncludes p.name query.toUpper).mergeSort
    nameLe).take 10

/-- `DatabaseStorage.createProduct`: the sale price is the fixed
`purchasePrice * 1.2`; the supplied margin and optional fields are not
passed to the insert, so the row carries the column defaults
(`profit_margin` 20.00, `stock`/`min_stock` 0, `barcode`/`buyer_name`
NULL, `created_at` now). -/
def createProduct (s : State) (ins : InsertProduct) (now : Int) :
    Product × State :=
  let salePrice := toFixed2 (ins.purchasePrice * (6 / 5))
  let product : Product :=
    { id := s.nextProductId
      name := ins.name
      barcode := none
      purchasePrice := ins.purchasePrice
      salePrice := salePrice
      profitMargin := 20
      buyerName := none
      stock := some 0
      minStock := some 0
      createdAt := now
      updatedAt := now }
  (product,
    { s with
      products := s.products ++ [product]
      nextProductId := s.nextProductId + 1 })

/-- `DatabaseStorage.updateProduct`: `UPDATE products SET name,
purchase_price, sale_price (= purchasePrice * 1.2), updated_at WHERE
id = ? RETURNING *`; every other column keeps its stored value. -/
def updateProduct (s : State) (id : Nat) (u : UpdateProduct) (now : Int) :
    Option Product × State :=
  let upd : Product → Product := fun p =>
    if p.id == id then
      { p with
        name := u.name
        purchasePrice := u.purchasePrice
        salePrice := toFixed2 (u.purchasePrice * (6 / 5))
        updatedAt := now }
    else p
  let products := s.products.map upd
  (products.find? (fun p => p.id == id), { s with products := products })

/-- `DatabaseStorage.deleteProduct`: `DELETE WHERE id = ?`,
`rowCount > 0`. -/
def deleteProduct (s : State) (id : Nat) : Bool × State :=
  let kept := s.products.filter fun p => !(p.id == id)
  (decide (kept.length < s.products.length), { s with products := kept })

/-- `DatabaseStorage.getAllBusinessNews`: `WHERE now < expires_at ORDER BY
created_at ASC`; a row with `expires_at` NULL fails the SQL comparison and
is not returned — `is_permanent` is never consulted. -/
def getAllBusinessNews (s : State) (now : Int) : List BusinessNews :=
  (s.businessNews.filter fun n =>
      match n.expiresAt with
      | some e => decide (now < e)
      | none => false).mergeSort createdLe

/-- `DatabaseStorage.createBusinessNews`: `expiresAt` is set to
`now + 3 days` unconditionally — also for permanent announcements. -/
def createBusinessNews (s : State) (ins : InsertBusinessNews) (now : Int) :
    BusinessNews × State :=
  let news : BusinessNews :=
    { id := s.nextNewsId
      title := ins.title
      content := ins.content
      isPermanent := ins.isPermanent.getD false
      createdAt := now
      expiresAt := some (now + 3 * dayMs) }
  (news,
    { s with
      businessNews := s.businessNews ++ [news]
      nextNewsId := s.nextNewsId + 1 })

/-- `DatabaseStorage.deleteBusinessNews`. -/
def deleteBusinessNews (s : State) (id : Nat) : Bool × State :=
  let kept := s.businessNews.filter fun n => !(n.id == id)
  (decide (kept.length < s.businessNews.length), { s with businessNews := kept })

/-- `DatabaseStorage.deleteExpiredNews`: `DELETE WHERE expires_at < now`
(strict; a NULL `expires_at` fails the SQL comparison and survives),
returning `rowCount`. -/
def deleteExpiredNews (s : State) (now : Int) : Nat × State :=
  let kept := s.businessNews.filter fun n =>
    !(match n.expiresAt with
      | some e => decide (e < now)
      | none => false)
  (s.businessNews.length - kept.length, { s with businessNews := kept })

end Db

/-- Outcome of a modelled route handler. -/
inductive RouteResult (α : Type) where
  | ok : α → RouteResult α
  | badRequest : String → RouteResult α
  | notFound : RouteResult α
deriving DecidableEq, Repr

namespace Routes

/-- The duplicate-name message of `routes.ts`. -/
def dupMsg : String := "Product with this name already exists"

/-- `POST /api/products` after successful schema validation: reject when
`getProductByName` finds an existing product with the same name, else
create. The handler runs against the in-memory backend. -/
def postProduct (s : Mem.State) (body : InsertProduct) (now : Int) :
    RouteResult Product × Mem.State :=
  match Mem.getProductByName s body.name with
  | some _ => (.badRequest dupMsg, s)
  | none =>
    let (p, s2) := Mem.createProduct s body now
    (.ok p, s2)

/-- `PUT /api/products/:id` after successful schema validation: 404 when
the id is absent, reject when `getProductByName` finds the new name on a
different product, else update. The final `none` branch is unreachable
(existence was checked just above in the same request). -/
def putProduct (s : Mem.State) (id : Nat) (body : UpdateProduct) (now : Int) :
    RouteResult Product × Mem.State :=
  match Mem.getProductById s id with
  | none => (.notFound, s)
  | some _ =>
    let dup : Bool :=
      match Mem.getProductByName s body.name with
      | some d => d.id != id
      | none => false
    if dup then (.badRequest dupMsg, s)
    else
      match Mem.updateProduct s id body now with
      | (some p, s2) => (.ok p, s2)
      | (none, s2) => (.notFound, s2)

end Routes

unseal List.merge List.mergeSort

/-! ## Shared helper lemmas -/

theorem nameLe_trans : ∀ (a b c : Product),
    nameLe a b → nameLe b c → nameLe a c := by
  intro a b c hab hbc
  simp only [nameLe, decide_eq_true_eq] at *
  exact le_trans hab hbc

theorem nameLe_total : ∀ (a b : Product), nameLe a b || nameLe b a := by
  intro a b
  simp only [nameLe, Bool.or_eq_true, decide_eq_true_eq]
  exact le_total _ _

theorem createdLe_trans : ∀ (a b c : BusinessNews),
    createdLe a b → createdLe b c → createdLe a c := by
  intro a b c hab hbc
  simp only [createdLe, decide_eq_true_eq] at *
  omega

theorem createdLe_total : ∀ (a b : BusinessNews),
    createdLe a b || createdLe b a := by
  intro a b
  simp only [createdLe, Bool.or_eq_true, decide_eq_true_eq]
  omega

theorem pairwise_nameLe_mergeSort (l : List Product) :
    (l.mergeSort nameLe).Pairwise fun a b => a.name ≤ b.name := by
  have h := List.sorted_mergeSort nameLe_trans nameLe_total l
  exact h.imp fun hb => by simpa [nameLe] using hb

theorem pairwise_createdLe_mergeSort (l : List BusinessNews) :
    (l.mergeSort createdLe).Pairwise fun a b => a.createdAt ≤ b.createdAt := by
  have h := List.sorted_mergeSort createdLe_trans createdLe_total l
  exact h.imp fun hb => by simpa [createdLe] using hb

/-- If `findIdx?` found its first hit at `i` and the replacement still
satisfies the test, `find?` over the updated list returns the
replacement. -/
theorem find?_set_of_findIdx? {α : Type} (f : α → Bool) :
    ∀ (l : List α) (i : Nat) (m : α),
      l.findIdx? f = some i → f m = true → (l.set i m).find? f = some m := by
  intro l
  induction l with
  | nil => intro i m h _; simp at h
  | cons x xs ih =>
    intro i m h hm
    rw [List.findIdx?_cons] at h
    by_cases hx : f x = true
    · simp only [hx, if_true, Option.some.injEq] at h
      subst h
      rw [List.set_cons_zero]
      exact List.find?_cons_of_pos xs hm
    · rw [if_neg hx, List.findIdx?_start_succ] at h
      rcases hj : xs.findIdx? f with _ | j
      · rw [hj] at h; simp at h
      · rw [hj, Option.map_some'] at h
        obtain rfl : j + (0 + 1) = i := Option.some.inj h
        have hset : (x :: xs).set (j + (0 + 1)) m = x :: xs.set j m := by simp
        rw [hset, List.find?_cons_of_neg _ hx, ih j m hj hm]

/-- The effective margin of `MemStorage` create/update:
`x ? parseFloat(x) : fallback`. -/
def effMargin (x : Option ℚ) (fallback : ℚ) : ℚ :=
  match x with
  | some m => m
  | none => fallback

/-- Characterization of `Mem.updateProduct` when the id is present: it
returns the merged record and writes it back at the found index. -/
theorem Mem_updateProduct_spec (s : Mem.State) (id : Nat) (u : UpdateProduct)
    (now : Int) (idx : Nat) (old : Product)
    (hidx : s.products.findIdx? (fun p => p.id == id) = some idx)
    (hold : s.products[idx]? = some old) :
    ∃ prod,
      Mem.updateProduct s id u now =
        (some prod, { s with products := s.products.set idx prod }) ∧
      prod.name = u.name ∧
      prod.purchasePrice = u.purchasePrice ∧
      prod.profitMargin = effMargin u.profitMargin old.profitMargin ∧
      prod.salePrice =
        toFixed2 (u.purchasePrice *
          (1 + effMargin u.profitMargin old.profitMargin / 100)) ∧
      prod.barcode = jsStrOrElse u.barcode old.barcode ∧
      prod.buyerName = jsStrOrElse u.buyerName old.buyerName ∧
      prod.stock = jsIntOrKeep u.stock old.stock ∧
      prod.minStock = jsIntOrKeep u.minStock old.minStock ∧
      prod.id = old.id ∧
      prod.createdAt = old.createdAt ∧
      prod.updatedAt = now := by
  refine ⟨{ old with
      name := u.name
      barcode := jsStrOrElse u.barcode old.barcode
      purchasePrice := u.purchasePrice
      salePrice := toFixed2 (u.purchasePrice *
        (1 + effMargin u.profitMargin old.profitMargin / 100))
      profitMargin := effMargin u.profitMargin old.profitMargin
      buyerName := jsStrOrElse u.buyerName old.buyerName
      stock := jsIntOrKeep u.stock old.stock
      minStock := jsIntOrKeep u.minStock old.minStock
      updatedAt := now },
    ?_, rfl, rfl, rfl, rfl, rfl, rfl, rfl, rfl, rfl, rfl, rfl⟩
  simp only [Mem.updateProduct, hidx, hold]
  cases u.profitMargin <;> rfl

/-- If `Mem.updateProduct` returns a record, the id was present. -/
theorem Mem_updateProduct_isSome (s : Mem.State) (id : Nat) (u : UpdateProduct)
    (now : Int) (prod : Product)
    (h : (Mem.updateProduct s id u now).1 = some prod) :
    ∃ idx old, s.products.findIdx? (fun p => p.id == id) = some idx ∧
      s.products[idx]? = some old := by
  rcases hidx : s.products.findIdx? (fun p => p.id == id) with _ | idx
  · rw [Mem.updateProduct, hidx] at h
    simp at h
  · rcases hold : s.products[idx]? with _ | old
    · rw [Mem.updateProduct, hidx] at h
      simp only [hold] at h
      simp at h
    · exact ⟨idx, old, hidx, hold⟩

/-- Characterization of `Db.updateProduct` when it returns a record: the
record is a stored row with the patched name/price and the fixed-margin
sale price, everything else untouched. -/
theorem Db_updateProduct_spec (s : Db.State) (id : Nat) (u : UpdateProduct)
    (now : Int) (prod : Product)
    (h : (Db.updateProduct s id u now).1 = some prod) :
    ∃ q ∈ s.products, q.id = id ∧
      prod = { q with
        name := u.name
        purchasePrice := u.purchasePrice
        salePrice := toFixed2 (u.purchasePrice * (6 / 5))
        updatedAt := now } := by
  simp only [Db.updateProduct] at h
  have hpred := List.find?_some h
  have hmem := List.mem_of_find?_eq_some h
  rw [List.mem_map] at hmem
  obtain ⟨q, hq, hqe⟩ := hmem
  by_cases hid : q.id == id
  · refine ⟨q, hq, by simpa using hid, ?_⟩
    rw [← hqe, if_pos hid]
  · rw [if_neg hid] at hqe
    subst hqe
    exact absurd hpred hid

/-- C1 (amended): in the in-memory backend a created or updated product's
sale price is `round(p * (1 + m/100), 2)` for the supplied margin `m`;
in the database backend the supplied margin is ignored and the sale price
is always `round(p * (1 + 20/100), 2)`.  In both backends every created
product satisfies the stored-field relation
`salePrice = round(purchasePrice * (1 + profitMargin/100), 2)`. -/
theorem C1_price_derivation (p m : ℚ) (_hp : 0 < p) (_hm : 0 ≤ m) :
    (∀ (s : Mem.State) (ins : InsertProduct) (now : Int),
        ins.purchasePrice = p → ins.profitMargin = some m →
        (Mem.createProduct s ins now).1.salePrice =
          toFixed2 (p * (1 + m / 100))) ∧
    (∀ (s : Mem.State) (id : Nat) (u : UpdateProduct) (now : Int)
        (prod : Product),
        u.purchasePrice = p → u.profitMargin = some m →
        (Mem.updateProduct s id u now).1 = some prod →
        prod.salePrice = toFixed2 (p * (1 + m / 100))) ∧
    (∀ (s : Db.State) (ins : InsertProduct) (now : Int),
        ins.purchasePrice = p →
        (Db.createProduct s ins now).1.salePrice =
          toFixed2 (p * (1 + (20 : ℚ) / 100))) ∧
    (∀ (s : Db.State) (id : Nat) (u : UpdateProduct) (now : Int)
        (prod : Product),
        u.purchasePrice = p →
        (Db.updateProduct s id u now).1 = some prod →
        prod.salePrice = toFixed2 (p * (1 + (20 : ℚ) / 100))) ∧
    (∀ (s : Mem.State) (ins : InsertProduct) (now : Int),
        (Mem.createProduct s ins now).1.salePrice =
          toFixed2 ((Mem.createProduct s ins now).1.purchasePrice *
            (1 + (Mem.createProduct s ins now).1.profitMargin / 100))) ∧
    (∀ (s : Db.State) (ins : InsertProduct) (now : Int),
        (Db.createProduct s ins now).1.salePrice =
          toFixed2 ((Db.createProduct s ins now).1.purchasePrice *
            (1 + (Db.createProduct s ins now).1.profitMargin / 100))) := by
  refine ⟨?_, ?_, ?_, ?_, ?_, ?_⟩
  · intro s ins now hpp hpm
    simp [Mem.createProduct, hpp, hpm]
  · intro s id u now prod hpp hpm h
    obtain ⟨idx, old, hidx, hold⟩ := Mem_updateProduct_isSome s id u now prod h
    obtain ⟨prod2, heq, -, -, -, hsale, -⟩ :=
      Mem_updateProduct_spec s id u now idx old hidx hold
    rw [heq] at h
    obtain rfl := Option.some.inj h
    rw [hsale, hpp, hpm, effMargin]
  · intro s ins now hpp
    have : (6 : ℚ) / 5 = 1 + (20 : ℚ) / 100 := by norm_num
    simp [Db.createProduct, hpp, this]
  · intro s id u now prod hpp h
    obtain ⟨q, hq, hqid, rfl⟩ := Db_updateProduct_spec s id u now prod h
    have : (6 : ℚ) / 5 = 1 + (20 : ℚ) / 100 := by norm_num
    simp [hpp, this]
  · intro s ins now
    cases hpm : ins.profitMargin <;> simp [Mem.createProduct, hpm]
  · intro s ins now
    have : (6 : ℚ) / 5 = 1 + (20 : ℚ) / 100 := by norm_num
    simp [Db.createProduct, this]

/-- C1 witness: creating `{purchasePrice 49.99, margin 20}` in the
in-memory backend stores sale price `59.99` (the spec's rounding
example). -/
theorem C1_price_derivation_witness :
    (Mem.createProduct ⟨[], [], 1, 1⟩
        { name := "ARROZ", purchasePrice := 4999 / 100,
          profitMargin := some 20 } 0).1.salePrice = 5999 / 100 := by
  have h := (C1_price_derivation (4999 / 100) 20 (by norm_num) (by norm_num)).1
    ⟨[], [], 1, 1⟩
    { name := "ARROZ", purchasePrice := 4999 / 100, profitMargin := some 20 }
    0 rfl rfl
  rw [h]
  norm_num [toFixed2, round_eq]

/-- C1 counterexample: the database backend's `createProduct` at purchase
price 100 and supplied margin 50 stores sale price 120, not the
`round(100 * 1.5, 2) = 150` the claim requires. -/
theorem C1_counterexample :
    (Db.createProduct ⟨[], [], 1, 1⟩
        { name := "ACEITE", purchasePrice := 100,
          profitMargin := some 50 } 0).1.salePrice = 120 ∧
    toFixed2 ((100 : ℚ) * (1 + (50 : ℚ) / 100)) = 150 ∧
    (120 : ℚ) ≠ 150 := by
  refine ⟨?_, ?_, by norm_num⟩ <;>
    norm_num [Db.createProduct, toFixed2, round_eq]

/-- A permanent announcement as `MemStorage.createBusinessNews` stores it:
`isPermanent` true, `expiresAt` null. -/
def exNewsPerm : BusinessNews :=
  { id := 1, title := "OFERTA", content := "TEXTO",
    isPermanent := true, createdAt := 0, expiresAt := none }

/-- An in-memory store holding exactly the permanent announcement. -/
def exStateC2 : Mem.State :=
  { products := [], businessNews := [exNewsPerm],
    nextProductId := 1, nextNewsId := 2 }

/-- C2 (code bug): the in-memory sweep keeps only entries with
`new Date(expiresAt) > now`; a permanent announcement has `expiresAt`
null, which `new Date` turns into the epoch, so the sweep removes it and
counts it — the claim (and the read path `getAllBusinessNews` of the same
file) says permanent announcements are never removed. -/
theorem C2_sweep_removes_permanent :
    (Mem.deleteExpiredNews exStateC2 1).1 = 1 ∧
    (Mem.deleteExpiredNews exStateC2 1).2.businessNews = [] ∧
    exNewsPerm.isPermanent = true ∧
    exStateC2.businessNews = [exNewsPerm] := by
  exact ⟨rfl, rfl, rfl, rfl⟩

/-- C3 (amended): both backends return the filtered announcements in
ascending creation order, but the active predicates differ: the in-memory
backend keeps `isPermanent || now < expiresAt`, while the database backend
keeps only `now < expiresAt` — `isPermanent` is never consulted, so a
permanent announcement whose (always-set) `expiresAt` has passed is not
listed there. -/
theorem C3_list_active :
    (∀ (s : Mem.State) (now : Int),
      (Mem.getAllBusinessNews s now).Perm
          (s.businessNews.filter (Mem.newsActive now)) ∧
      (Mem.getAllBusinessNews s now).Pairwise
          (fun a b => a.createdAt ≤ b.createdAt) ∧
      (∀ n : BusinessNews, n ∈ Mem.getAllBusinessNews s now ↔
        n ∈ s.businessNews ∧
          (n.isPermanent = true ∨ ∃ e, n.expiresAt = some e ∧ now < e))) ∧
    (∀ (s : Db.State) (now : Int),
      (Db.getAllBusinessNews s now).Pairwise
          (fun a b => a.createdAt ≤ b.createdAt) ∧
      (∀ n : BusinessNews, n ∈ Db.getAllBusinessNews s now ↔
        n ∈ s.businessNews ∧ ∃ e, n.expiresAt = some e ∧ now < e)) := by
  constructor
  · intro s now
    refine ⟨List.mergeSort_perm _ _, pairwise_createdLe_mergeSort _, ?_⟩
    intro n
    rw [Mem.getAllBusinessNews, (List.mergeSort_perm _ _).mem_iff,
      List.mem_filter]
    constructor
    · rintro ⟨hmem, hact⟩
      refine ⟨hmem, ?_⟩
      simp only [Mem.newsActive, Bool.or_eq_true] at hact
      rcases hact with h | h
      · exact Or.inl h
      · rcases he : n.expiresAt with _ | e
        · rw [he] at h; simp at h
        · rw [he] at h
          exact Or.inr ⟨e, rfl, by simpa using h⟩
    · rintro ⟨hmem, h | ⟨e, he, hlt⟩⟩
      · exact ⟨hmem, by simp [Mem.newsActive, h]⟩
      · exact ⟨hmem, by simp [Mem.newsActive, he, hlt]⟩
  · intro s now
    refine ⟨pairwise_createdLe_mergeSort _, ?_⟩
    intro n
    rw [Db.getAllBusinessNews, (List.mergeSort_perm _ _).mem_iff,
      List.mem_filter]
    constructor
    · rintro ⟨hmem, hact⟩
      refine ⟨hmem, ?_⟩
      rcases he : n.expiresAt with _ | e
      · rw [he] at hact; simp at hact
      · rw [he] at hact
        exact ⟨e, rfl, by simpa using hact⟩
    · rintro ⟨hmem, e, he, hlt⟩
      exact ⟨hmem, by simp [he, hlt]⟩

/-- A permanent announcement as the database backend stores it: the
creation path sets `expiresAt` even when `isPermanent` is true. -/
def exNewsPermDb : BusinessNews :=
  { id := 1, title := "OFERTA", content := "TEXTO",
    isPermanent := true, createdAt := 0, expiresAt := some 5 }

/-- A database store holding exactly the permanent announcement whose
`expiresAt` has passed at `now = 10`. -/
def exStateC3 : Db.State :=
  { products := [], businessNews := [exNewsPermDb],
    nextProductId := 1, nextNewsId := 2 }

/-- C3 counterexample: in the database backend a permanent announcement
whose `expiresAt` (always set at creation) lies in the past is absent from
the listing, although the claim says every permanent announcement is
included. -/
theorem C3_counterexample :
    Db.getAllBusinessNews exStateC3 10 = [] ∧
    exNewsPermDb.isPermanent = true ∧
    exStateC3.businessNews = [exNewsPermDb] := by
  exact ⟨rfl, rfl, rfl⟩

/-- C4 (amended): at creation the in-memory backend sets `expiresAt` to
null for a permanent announcement and to `createdAt + 3 days` otherwise;
the database backend sets `expiresAt = createdAt + 3 days`
unconditionally, also for permanent announcements.  Records surviving a
sweep are the stored records unchanged (the expiry is never recomputed;
no operation rewrites an announcement). -/
theorem C4_expiry_at_creation :
    (∀ (s : Mem.State) (ins : InsertBusinessNews) (now : Int),
      (Mem.createBusinessNews s ins now).1.createdAt = now ∧
      (ins.isPermanent = some true →
        (Mem.createBusinessNews s ins now).1.expiresAt = none) ∧
      (ins.isPermanent.getD false = false →
        (Mem.createBusinessNews s ins now).1.expiresAt =
          some (now + 3 * dayMs))) ∧
    (∀ (s : Db.State) (ins : InsertBusinessNews) (now : Int),
      (Db.createBusinessNews s ins now).1.createdAt = now ∧
      (Db.createBusinessNews s ins now).1.expiresAt =
        some (now + 3 * dayMs)) ∧
    (∀ (s : Mem.State) (now : Int) (n : BusinessNews),
      n ∈ (Mem.deleteExpiredNews s now).2.businessNews →
        n ∈ s.businessNews) ∧
    (∀ (s : Db.State) (now : Int) (n : BusinessNews),
      n ∈ (Db.deleteExpiredNews s now).2.businessNews →
        n ∈ s.businessNews) := by
  refine ⟨?_, ?_, ?_, ?_⟩
  · intro s ins now
    refine ⟨rfl, ?_, ?_⟩
    · intro h
      simp [Mem.createBusinessNews, h]
    · intro h
      simp [Mem.createBusinessNews, h]
  · intro s ins now
    exact ⟨rfl, rfl⟩
  · intro s now n h
    rw [Mem.deleteExpiredNews] at h
    exact (List.mem_filter.mp h).1
  · intro s now n h
    rw [Db.deleteExpiredNews] at h
    exact (List.mem_filter.mp h).1

/-- C4 witness: a permanent announcement created in the in-memory backend
at time 7 carries no expiry, and a default (non-permanent) one created at
time 7 expires at `7 + 3 days`. -/
theorem C4_expiry_at_creation_witness :
    (Mem.createBusinessNews ⟨[], [], 1, 1⟩
        { title := "OFERTA", content := "TEXTO", isPermanent := some true }
        7).1.expiresAt = none ∧
    (Mem.createBusinessNews ⟨[], [], 1, 1⟩
        { title := "OFERTA", content := "TEXTO" } 7).1.expiresAt =
      some (7 + 3 * dayMs) := by
  constructor
  · exact (C4_expiry_at_creation.1 ⟨[], [], 1, 1⟩
      { title := "OFERTA", content := "TEXTO", isPermanent := some true }
      7).2.1 rfl
  · exact (C4_expiry_at_creation.1 ⟨[], [], 1, 1⟩
      { title := "OFERTA", content := "TEXTO" } 7).2.2 rfl

/-- C4 counterexample: the database backend's `createBusinessNews` for a
permanent announcement still sets `expiresAt = createdAt + 3 days`; the
claim requires null. -/
theorem C4_counterexample :
    (Db.createBusinessNews ⟨[], [], 1, 1⟩
        { title := "OFERTA", content := "TEXTO", isPermanent := some true }
        0).1.expiresAt = some 259200000 ∧
    some (259200000 : Int) ≠ (none : Option Int) := by
  exact ⟨rfl, by simp⟩

/-- C5: when the patch omits `profitMargin`, the in-memory update reuses
the product's stored margin for the recomputation; the database backend
recomputes with the constant 20% — which coincides with the stored margin,
because every row its `createProduct` writes stores margin 20 and its
`updateProduct` never changes the margin column. -/
theorem C5_margin_inherited :
    (∀ (s : Mem.State) (id : Nat) (u : UpdateProduct) (now : Int)
        (idx : Nat) (old prod : Product),
        u.profitMargin = none →
        s.products.findIdx? (fun p => p.id == id) = some idx →
        s.products[idx]? = some old →
        (Mem.updateProduct s id u now).1 = some prod →
        prod.profitMargin = old.profitMargin ∧
        prod.salePrice =
          toFixed2 (u.purchasePrice * (1 + old.profitMargin / 100))) ∧
    (∀ (s : Db.State) (ins : InsertProduct) (now : Int),
        (Db.createProduct s ins now).1.profitMargin = 20) ∧
    (∀ (s : Db.State) (id : Nat) (u : UpdateProduct) (now : Int)
        (prod : Product),
        (∀ q ∈ s.products, q.profitMargin = 20) →
        (Db.updateProduct s id u now).1 = some prod →
        prod.profitMargin = 20 ∧
        prod.salePrice =
          toFixed2 (u.purchasePrice * (1 + prod.profitMargin / 100))) := by
  refine ⟨?_, ?_, ?_⟩
  · intro s id u now idx old prod hnone hidx hold h
    obtain ⟨prod2, heq, -, -, hpm, hsale, -⟩ :=
      Mem_updateProduct_spec s id u now idx old hidx hold
    rw [heq] at h
    obtain rfl := Option.some.inj h
    rw [hnone] at hpm hsale
    exact ⟨hpm, hsale⟩
  · intro s ins now
    rfl
  · intro s id u now prod hinv h
    obtain ⟨q, hq, -, rfl⟩ := Db_updateProduct_spec s id u now prod h
    have hq20 : q.profitMargin = 20 := hinv q hq
    constructor
    · exact hq20
    · show toFixed2 (u.purchasePrice * (6 / 5)) =
        toFixed2 (u.purchasePrice * (1 + q.profitMargin / 100))
      rw [hq20]
      norm_num

/-- A stored in-memory product carrying a non-default margin of 50. -/
def exOldC5 : Product :=
  { id := 1, name := "ARROZ", barcode := none, purchasePrice := 100,
    salePrice := 150, profitMargin := 50, buyerName := none,
    stock := none, minStock := none, createdAt := 0, updatedAt := 0 }

/-- An in-memory store holding exactly `exOldC5`. -/
def exStateC5 : Mem.State :=
  { products := [exOldC5], businessNews := [],
    nextProductId := 2, nextNewsId := 1 }

/-- A validated patch that omits `profitMargin`. -/
def exPatchC5 : UpdateProduct :=
  { name := "ARROZ", purchasePrice := 80 }

/-- C5 witness: updating `exOldC5` (stored margin 50) with a patch that
omits the margin keeps margin 50 and derives the sale price from it, not
from the default 20. -/
theorem C5_margin_inherited_witness :
    ∃ prod, (Mem.updateProduct exStateC5 1 exPatchC5 9).1 = some prod ∧
      prod.profitMargin = 50 ∧
      prod.salePrice = toFixed2 (80 * (1 + (50 : ℚ) / 100)) := by
  obtain ⟨p0, hp0, -⟩ :=
    Mem_updateProduct_spec exStateC5 1 exPatchC5 9 0 exOldC5 rfl rfl
  have hres : (Mem.updateProduct exStateC5 1 exPatchC5 9).1 = some p0 := by
    rw [hp0]
  have h := C5_margin_inherited.1 exStateC5 1 exPatchC5 9 0 exOldC5 p0
    rfl rfl rfl hres
  exact ⟨p0, hres, h.1, h.2⟩

/-- C6: the route handlers reject a create whose name is already taken and
an update whose new name is held by a different product, leaving the store
unchanged; an update keeping the product's own name goes through. -/
theorem C6_duplicate_name :
    (∀ (s : Mem.State) (body : InsertProduct) (now : Int),
      (∃ q ∈ s.products, q.name = body.name) →
      Routes.postProduct s body now = (.badRequest Routes.dupMsg, s)) ∧
    (∀ (s : Mem.State) (id : Nat) (body : UpdateProduct) (now : Int)
        (x d : Product),
      Mem.getProductById s id = some x →
      Mem.getProductByName s body.name = some d →
      d.id ≠ id →
      Routes.putProduct s id body now = (.badRequest Routes.dupMsg, s)) ∧
    (∀ (s : Mem.State) (id : Nat) (body : UpdateProduct) (now : Int)
        (x : Product),
      Mem.getProductById s id = some x →
      body.name = x.name →
      (∀ y ∈ s.products, y.name = x.name → y.id = id) →
      ∃ prod s2, Routes.putProduct s id body now = (.ok prod, s2)) := by
  refine ⟨?_, ?_, ?_⟩
  · intro s body now ⟨q, hq, hname⟩
    have hsome : (Mem.getProductByName s body.name).isSome := by
      rw [Mem.getProductByName, List.find?_isSome]
      exact ⟨q, hq, by simp [hname]⟩
    rcases hfind : Mem.getProductByName s body.name with _ | d
    · rw [hfind] at hsome; simp at hsome
    · simp [Routes.postProduct, hfind]
  · intro s id body now x d hx hfind hne
    rw [Routes.putProduct, hx, hfind]
    have hb : (d.id != id) = true := by simpa using hne
    simp [hb]
  · intro s id body now x hx hname huniq
    have hupd : ∃ prod s2,
        Mem.updateProduct s id body now = (some prod, s2) := by
      have hmem := List.mem_of_find?_eq_some hx
      have hpred := List.find?_some hx
      have hidxsome : (s.products.findIdx? (fun p => p.id == id)).isSome := by
        rw [List.findIdx?_isSome, List.any_eq_true]
        exact ⟨x, hmem, hpred⟩
      rcases hidx : s.products.findIdx? (fun p => p.id == id) with _ | idx
      · rw [hidx] at hidxsome; simp at hidxsome
      · obtain ⟨hlt, -, -⟩ := List.findIdx?_eq_some_iff_getElem.mp hidx
        obtain ⟨prod, heq, -⟩ := Mem_updateProduct_spec s id body now idx
          (s.products[idx]) hidx (List.getElem?_eq_getElem hlt)
        exact ⟨prod, _, heq⟩
    obtain ⟨prod, s2, heq⟩ := hupd
    rcases hfind : Mem.getProductByName s body.name with _ | d
    · refine ⟨prod, s2, ?_⟩
      rw [Routes.putProduct, hx, hfind]
      simp [heq]
    · have hdmem := List.mem_of_find?_eq_some hfind
      have hdname : d.name = body.name := by
        simpa using List.find?_some hfind
      have hdid : d.id = id := huniq d hdmem (hname ▸ hdname)
      refine ⟨prod, s2, ?_⟩
      rw [Routes.putProduct, hx, hfind]
      have hb : (d.id != id) = false := by simp [hdid]
      simp [hb, heq]

/-- The stored product "ARROZ". -/
def exArroz : Product :=
  { id := 1, name := "ARROZ", barcode := none, purchasePrice := 100,
    salePrice := 120, profitMargin := 20, buyerName := none, stock := none,
    minStock := none, createdAt := 0, updatedAt := 0 }

/-- The stored product "AZUCAR". -/
def exAzucar : Product :=
  { id := 2, name := "AZUCAR", barcode := none, purchasePrice := 50,
    salePrice := 60, profitMargin := 20, buyerName := none, stock := none,
    minStock := none, createdAt := 0, updatedAt := 0 }

/-- An in-memory store holding "ARROZ" and "AZUCAR". -/
def exStateC6 : Mem.State :=
  { products := [exArroz, exAzucar], businessNews := [],
    nextProductId := 3, nextNewsId := 1 }

/-- C6 witness: re-creating "ARROZ" and renaming "AZUCAR" to "ARROZ" are
both rejected with the store unchanged, while an update keeping "ARROZ"
on its own product succeeds. -/
theorem C6_duplicate_name_witness :
    Routes.postProduct exStateC6 { name := "ARROZ", purchasePrice := 10 } 5
      = (.badRequest Routes.dupMsg, exStateC6) ∧
    Routes.putProduct exStateC6 2 { name := "ARROZ", purchasePrice := 10 } 5
      = (.badRequest Routes.dupMsg, exStateC6) ∧
    ∃ prod s2, Routes.putProduct exStateC6 1
        { name := "ARROZ", purchasePrice := 10 } 5 = (.ok prod, s2) := by
  refine ⟨?_, ?_, ?_⟩
  · exact C6_duplicate_name.1 exStateC6 { name := "ARROZ", purchasePrice := 10 }
      5 ⟨exArroz, by simp [exStateC6], rfl⟩
  · exact C6_duplicate_name.2.1 exStateC6 2
      { name := "ARROZ", purchasePrice := 10 } 5 exAzucar exArroz rfl rfl
      (by decide)
  · exact C6_duplicate_name.2.2 exStateC6 1
      { name := "ARROZ", purchasePrice := 10 } 5 exArroz rfl rfl (by decide)

/-- The substring test of the embedding is exactly list infixhood. -/
theorem listContainsSeq_iff_infix (sub : List Char) :
    ∀ l : List Char, listContainsSeq sub l = true ↔ sub <:+: l := by
  intro l
  induction l with
  | nil =>
    rw [listContainsSeq]
    simp [List.isEmpty_iff]
  | cons c t ih =>
    rw [listContainsSeq, Bool.or_eq_true, List.isPrefixOf_iff_prefix, ih,
      List.infix_cons_iff]

/-- C7: search filters on the uppercased query being a substring of the
stored name, sorts all matches ascending by name, and only then truncates
to the first 10 — identically in both backends. -/
theorem C7_search_sorted_truncated (q : String) :
    (∀ s : Mem.State, ∃ l : List Product,
      l.Perm (s.products.filter fun p => strIncludes p.name q.toUpper) ∧
      (l.Pairwise fun a b => a.name ≤ b.name) ∧
      Mem.searchProducts s q = l.take 10) ∧
    (∀ s : Db.State, ∃ l : List Product,
      l.Perm (s.products.filter fun p => strIncludes p.name q.toUpper) ∧
      (l.Pairwise fun a b => a.name ≤ b.name) ∧
      Db.searchProducts s q = l.take 10) ∧
    (∀ hay : String,
      strIncludes hay q.toUpper = true ↔ q.toUpper.data <:+: hay.data) := by
  refine ⟨?_, ?_, ?_⟩
  · intro s
    exact ⟨_, List.mergeSort_perm _ _, pairwise_nameLe_mergeSort _, rfl⟩
  · intro s
    exact ⟨_, List.mergeSort_perm _ _, pairwise_nameLe_mergeSort _, rfl⟩
  · intro hay
    exact listContainsSeq_iff_infix _ hay.data

/-- C8 (amended): after an update, `get` returns the merged record:
name and purchasePrice always come from the patch, salePrice is freshly
derived with the effective margin, stock/minStock reflect any supplied
value (including 0), but barcode and buyerName supplied as the empty
string fall back to the prior stored value (JS `||` merge), as do omitted
fields; id and createdAt are preserved and updatedAt is refreshed. -/
theorem C8_update_get (s : Mem.State) (id : Nat) (u : UpdateProduct)
    (now : Int) (idx : Nat) (old : Product)
    (hidx : s.products.findIdx? (fun p => p.id == id) = some idx)
    (hold : s.products[idx]? = some old) :
    ∃ prod,
      (Mem.updateProduct s id u now).1 = some prod ∧
      Mem.getProductById (Mem.updateProduct s id u now).2 id = some prod ∧
      prod.name = u.name ∧
      prod.purchasePrice = u.purchasePrice ∧
      prod.profitMargin = effMargin u.profitMargin old.profitMargin ∧
      prod.salePrice = toFixed2 (u.purchasePrice *
        (1 + effMargin u.profitMargin old.profitMargin / 100)) ∧
      prod.barcode = jsStrOrElse u.barcode old.barcode ∧
      prod.buyerName = jsStrOrElse u.buyerName old.buyerName ∧
      prod.stock = jsIntOrKeep u.stock old.stock ∧
      prod.minStock = jsIntOrKeep u.minStock old.minStock ∧
      prod.id = old.id ∧
      prod.createdAt = old.createdAt ∧
      prod.updatedAt = now := by
  obtain ⟨prod, heq, hname, hpp, hpm, hsale, hbar, hbuy, hstock, hmin, hid,
    hcreated, hupd⟩ := Mem_updateProduct_spec s id u now idx old hidx hold
  refine ⟨prod, by rw [heq], ?_, hname, hpp, hpm, hsale, hbar, hbuy, hstock,
    hmin, hid, hcreated, hupd⟩
  rw [heq]
  show (s.products.set idx prod).find? (fun p => p.id == id) = some prod
  apply find?_set_of_findIdx? _ _ _ _ hidx
  have hpred := List.findIdx?_of_eq_some hidx
  rw [hold] at hpred
  simpa [hid] using hpred

/-- A stored product with a nonempty barcode. -/
def exOldC8 : Product :=
  { id := 1, name := "ARROZ", barcode := some "750100", purchasePrice := 100,
    salePrice := 120, profitMargin := 20, buyerName := none, stock := some 5,
    minStock := none, createdAt := 0, updatedAt := 0 }

/-- An in-memory store holding exactly `exOldC8`. -/
def exStateC8 : Mem.State :=
  { products := [exOldC8], businessNews := [],
    nextProductId := 2, nextNewsId := 1 }

/-- A validated patch supplying `barcode` as the empty string and
`stock` as 0. -/
def exPatchC8 : UpdateProduct :=
  { name := "ARROZ", purchasePrice := 100, profitMargin := some 20,
    barcode := some "", stock := some 0 }

/-- C8 counterexample: the patch supplies `barcode = ""`, a value the
update schema accepts, yet update-then-get still returns the prior barcode
— the patched field is not reflected, refuting the claim as stated.
(`stock = 0`, by contrast, is reflected: the merge tests
`!== undefined` for stock but `||` for barcode.) -/
theorem C8_counterexample :
    exPatchC8.barcode = some "" ∧
    (Mem.getProductById (Mem.updateProduct exStateC8 1 exPatchC8 9).2 1).map
        Product.barcode = some (some "750100") ∧
    some (some "750100") ≠ some (some "") ∧
    (Mem.getProductById (Mem.updateProduct exStateC8 1 exPatchC8 9).2 1).map
        Product.stock = some (some 0) := by
  refine ⟨rfl, rfl, by simp, rfl⟩

/-- C8 witness: the full field-by-field round trip at a concrete store
and patch. -/
theorem C8_update_get_witness :
    ∃ prod,
      (Mem.updateProduct exStateC8 1 exPatchC8 9).1 = some prod ∧
      Mem.getProductById (Mem.updateProduct exStateC8 1 exPatchC8 9).2 1
        = some prod ∧
      prod.name = "ARROZ" ∧
      prod.barcode = some "750100" ∧
      prod.stock = some 0 ∧
      prod.updatedAt = 9 := by
  obtain ⟨prod, h1, h2, h3, -, -, -, h7, -, h9, -, -, -, h13⟩ :=
    C8_update_get exStateC8 1 exPatchC8 9 0 exOldC8 rfl rfl
  exact ⟨prod, h1, h2, h3, h7, h9, h13⟩

/-- C9: in both backends `delete(id)` reports true exactly when a record
with that id was stored (and then the store shrinks); on a miss it reports
false and leaves the store untouched.  Both operations are total
functions, so no input makes them fail. -/
theorem C9_delete_miss_returns_false :
    (∀ (s : Mem.State) (id : Nat),
      ((Mem.deleteProduct s id).1 = true ↔ ∃ p ∈ s.products, p.id = id) ∧
      ((Mem.deleteProduct s id).1 = false → (Mem.deleteProduct s id).2 = s) ∧
      ((Mem.deleteProduct s id).1 = true →
        (Mem.deleteProduct s id).2.products.length + 1
          = s.products.length)) ∧
    (∀ (s : Db.State) (id : Nat),
      ((Db.deleteProduct s id).1 = true ↔ ∃ p ∈ s.products, p.id = id) ∧
      ((Db.deleteProduct s id).1 = false → (Db.deleteProduct s id).2 = s) ∧
      ((Db.deleteProduct s id).1 = true →
        (Db.deleteProduct s id).2.products.length
          < s.products.length)) := by
  constructor
  · intro s id
    rcases hidx : s.products.findIdx? (fun p => p.id == id) with _ | idx
    · have hall := List.findIdx?_eq_none_iff.mp hidx
      refine ⟨?_, ?_, ?_⟩ <;> rw [Mem.deleteProduct, hidx]
      · constructor
        · intro h; simp at h
        · rintro ⟨p, hp, hpid⟩
          have := hall p hp
          simp [hpid] at this
      · intro _; rfl
      · intro h; simp at h
    · obtain ⟨hlt, hpred, -⟩ := List.findIdx?_eq_some_iff_getElem.mp hidx
      refine ⟨?_, ?_, ?_⟩ <;> rw [Mem.deleteProduct, hidx]
      · simp only [true_iff]
        exact ⟨s.products[idx], List.getElem_mem hlt, by simpa using hpred⟩
      · intro h; simp at h
      · intro _
        simp only [List.length_eraseIdx_of_lt hlt]
        omega
  · intro s id
    refine ⟨?_, ?_, ?_⟩ <;> rw [Db.deleteProduct]
    · simp only [decide_eq_true_eq]
      constructor
      · intro hlen
        by_contra hno
        push_neg at hno
        have hall : ∀ p ∈ s.products, (!(p.id == id)) = true := by
          intro p hp
          simpa using hno p hp
        rw [List.filter_eq_self.mpr hall] at hlen
        omega
      · rintro ⟨p, hp, hpid⟩
        have hle := List.length_filter_le (fun p => !(p.id == id)) s.products
        rcases Nat.lt_or_ge
            ((s.products.filter fun p => !(p.id == id)).length)
            s.products.length with h | h
        · exact h
        · have heq : (s.products.filter fun p => !(p.id == id)).length
              = s.products.length := le_antisymm hle h
          rw [List.filter_length_eq_length] at heq
          have := heq p hp
          simp [hpid] at this
    · intro h
      simp only [decide_eq_false_iff_not, Nat.not_lt] at h
      have hle := List.length_filter_le (fun p => !(p.id == id)) s.products
      have heq : (s.products.filter fun p => !(p.id == id)).length
          = s.products.length := le_antisymm hle h
      rw [List.filter_length_eq_length] at heq
      have : s.products.filter (fun p => !(p.id == id)) = s.products :=
        List.filter_eq_self.mpr heq
      cases s
      simp_all
    · intro h
      simpa using h

/-- C9 witness: deleting id 1 from a store holding only `exArroz` (id 1)
reports true; deleting the never-assigned id 7 reports false with the
store unchanged. -/
theorem C9_delete_miss_returns_false_witness :
    (Mem.deleteProduct
        ⟨[exArroz], [], 2, 1⟩ 1).1 = true ∧
    (Mem.deleteProduct ⟨[exArroz], [], 2, 1⟩ 7).1 = false ∧
    (Mem.deleteProduct ⟨[exArroz], [], 2, 1⟩ 7).2
      = (⟨[exArroz], [], 2, 1⟩ : Mem.State) := by
  refine ⟨?_, ?_, ?_⟩
  · exact ((C9_delete_miss_returns_false.1 ⟨[exArroz], [], 2, 1⟩ 1).1).mpr
      ⟨exArroz, by simp, rfl⟩
  · rcases hb : (Mem.deleteProduct ⟨[exArroz], [], 2, 1⟩ 7).1 with _ | _
    · rfl
    · have := ((C9_delete_miss_returns_false.1 ⟨[exArroz], [], 2, 1⟩ 7).1).mp hb
      obtain ⟨p, hp, hpid⟩ := this
      simp at hp
      subst hp
      simp [exArroz] at hpid
  · exact (C9_delete_miss_returns_false.1 ⟨[exArroz], [], 2, 1⟩ 7).2.1 rfl

/-- C10: the in-memory `createProduct` maps the falsy optional inputs —
stock 0, minStock 0, empty barcode, empty buyerName — to null before
storing (`x || null`), and a subsequent `get` of the fresh id returns the
stored record, hence null for those fields. -/
theorem C10_falsy_optionals_stored_null :
    ∀ (s : Mem.State) (ins : InsertProduct) (now : Int),
      (ins.stock = some 0 →
        (Mem.createProduct s ins now).1.stock = none) ∧
      (ins.minStock = some 0 →
        (Mem.createProduct s ins now).1.minStock = none) ∧
      (ins.barcode = some "" →
        (Mem.createProduct s ins now).1.barcode = none) ∧
      (ins.buyerName = some "" →
        (Mem.createProduct s ins now).1.buyerName = none) ∧
      ((∀ q ∈ s.products, q.id ≠ s.nextProductId) →
        Mem.getProductById (Mem.createProduct s ins now).2
            (Mem.createProduct s ins now).1.id
          = some (Mem.createProduct s ins now).1) := by
  intro s ins now
  refine ⟨?_, ?_, ?_, ?_, ?_⟩
  · intro h; simp [Mem.createProduct, jsIntOrNull, h]
  · intro h; simp [Mem.createProduct, jsIntOrNull, h]
  · intro h; simp [Mem.createProduct, jsStrOrNull, h]
  · intro h; simp [Mem.createProduct, jsStrOrNull, h]
  · intro hfresh
    show (s.products ++ [(Mem.createProduct s ins now).1]).find?
        (fun p => p.id == (Mem.createProduct s ins now).1.id)
      = some (Mem.createProduct s ins now).1
    rw [List.find?_append]
    have hnone : s.products.find?
        (fun p => p.id == (Mem.createProduct s ins now).1.id) = none := by
      rw [List.find?_eq_none]
      intro q hq
      have : q.id ≠ s.nextProductId := hfresh q hq
      simpa [Mem.createProduct] using this
    rw [hnone, Option.none_or]
    simp

/-- C10 witness: inserting with stock 0 and empty barcode stores null for
both, and the fresh record is retrievable. -/
theorem C10_falsy_optionals_stored_null_witness :
    (Mem.createProduct ⟨[], [], 1, 1⟩
        { name := "ARROZ", purchasePrice := 100, barcode := some "",
          stock := some 0 } 0).1.stock = none ∧
    (Mem.createProduct ⟨[], [], 1, 1⟩
        { name := "ARROZ", purchasePrice := 100, barcode := some "",
          stock := some 0 } 0).1.barcode = none ∧
    Mem.getProductById
        (Mem.createProduct ⟨[], [], 1, 1⟩
          { name := "ARROZ", purchasePrice := 100, barcode := some "",
            stock := some 0 } 0).2
        (Mem.createProduct ⟨[], [], 1, 1⟩
          { name := "ARROZ", purchasePrice := 100, barcode := some "",
            stock := some 0 } 0).1.id
      = some (Mem.createProduct ⟨[], [], 1, 1⟩
          { name := "ARROZ", purchasePrice := 100, barcode := some "",
            stock := some 0 } 0).1 := by
  have h := C10_falsy_optionals_stored_null ⟨[], [], 1, 1⟩
    { name := "ARROZ", purchasePrice := 100, barcode := some "",
      stock := some 0 } 0
  exact ⟨h.1 rfl, h.2.2.1 rfl, h.2.2.2.2 (by simp)⟩
